import Mathlib

/-!
# Verification of the sharing-copyboard synchronization engine model

Shallow embedding of the sharing-copyboard repository (Tauri + React
clipboard/note synchronizer): the Rust conflict resolver and clipboard
monitor from `docs/demand.md`, the list manipulation logic of the React
pages (`HomePage.tsx`, `SearchPage.tsx`, `NotesPage.tsx`), and the parts
of the data model only described by the specification (encryption layer,
device sessions, eviction).
-/

namespace Demand

/-- The `ClipboardItem` struct from `docs/demand.md` (Rust): id, content,
physical timestamp and device id forming the hybrid clock. -/
structure ClipboardItem where
  id : String
  content : String
  timestamp : Int
  device_id : String
deriving DecidableEq, Repr

/-- Lexicographic order on strings, modelling Rust's `>`/`<` on `String`
(byte-lexicographic; embedded here as lexicographic order on the
character list). -/
def strLt (a b : String) : Prop :=
  a.data < b.data

instance (a b : String) : Decidable (strLt a b) := by
  unfold strLt; infer_instance

/-- Function `conflict_resolver` from `docs/demand.md`:
`if a.timestamp > b.timestamp || (a.timestamp == b.timestamp && a.device_id > b.device_id) { a } else { b }`. -/
def conflict_resolver (a b : ClipboardItem) : ClipboardItem :=
  if a.timestamp > b.timestamp ∨ (a.timestamp = b.timestamp ∧ strLt b.device_id a.device_id)
  then a else b

/-- Strict order on hybrid clocks: greater physical timestamp first, ties
broken by lexicographically greater device id. -/
def clockLt (a b : ClipboardItem) : Prop :=
  a.timestamp < b.timestamp ∨ (a.timestamp = b.timestamp ∧ strLt a.device_id b.device_id)

instance (a b : ClipboardItem) : Decidable (clockLt a b) := by
  unfold clockLt; infer_instance

/-- Equality of hybrid clocks. -/
def clockEq (a b : ClipboardItem) : Prop :=
  a.timestamp = b.timestamp ∧ a.device_id = b.device_id

instance (a b : ClipboardItem) : Decidable (clockEq a b) := by
  unfold clockEq; infer_instance

theorem conflict_resolver_eq_ite (a b : ClipboardItem) :
    conflict_resolver a b = if clockLt b a then a else b := by
  unfold conflict_resolver clockLt
  congr 1
  simp only [gt_iff_lt, eq_iff_iff]
  constructor
  · rintro (h | ⟨h1, h2⟩)
    · exact Or.inl h
    · exact Or.inr ⟨h1.symm, h2⟩
  · rintro (h | ⟨h1, h2⟩)
    · exact Or.inl h
    · exact Or.inr ⟨h1.symm, h2⟩

theorem strLt_trans {a b c : String} (h1 : strLt a b) (h2 : strLt b c) : strLt a c := by
  unfold strLt at *
  exact lt_trans h1 h2

theorem strLt_irrefl (a : String) : ¬ strLt a a := by
  unfold strLt
  exact lt_irrefl _

theorem strLt_trichotomy (a b : String) : strLt a b ∨ a = b ∨ strLt b a := by
  unfold strLt
  rcases lt_trichotomy a.data b.data with h | h | h
  · exact Or.inl h
  · exact Or.inr (Or.inl (by cases a; cases b; simp only at h; rw [h]))
  · exact Or.inr (Or.inr h)

theorem clockLt_trans {a b c : ClipboardItem} (hab : clockLt a b) (hbc : clockLt b c) :
    clockLt a c := by
  rcases hab with h | ⟨h1, h2⟩ <;> rcases hbc with h' | ⟨h1', h2'⟩
  · exact Or.inl (lt_trans h h')
  · exact Or.inl (h1' ▸ h)
  · exact Or.inl (h1 ▸ h')
  · exact Or.inr ⟨h1.trans h1', strLt_trans h2 h2'⟩

theorem clockLt_asymm {a b : ClipboardItem} (hab : clockLt a b) : ¬ clockLt b a := by
  rcases hab with h | ⟨h1, h2⟩
  · rintro (h' | ⟨h1', _⟩)
    · exact absurd (lt_trans h h') (lt_irrefl _)
    · exact absurd (h1' ▸ h) (lt_irrefl _)
  · rintro (h' | ⟨_, h2'⟩)
    · exact absurd (h1 ▸ h') (lt_irrefl _)
    · exact absurd (strLt_trans h2 h2') (strLt_irrefl _)

theorem clockEq_of_not_lt {a b : ClipboardItem}
    (h1 : ¬ clockLt a b) (h2 : ¬ clockLt b a) : clockEq a b := by
  unfold clockLt at h1 h2
  push_neg at h1 h2
  rcases lt_trichotomy a.timestamp b.timestamp with h | h | h
  · exact absurd h (by intro hc; exact absurd hc (by simpa using h1.1))
  · refine ⟨h, ?_⟩
    rcases strLt_trichotomy a.device_id b.device_id with h' | h' | h'
    · exact absurd h' (h1.2 h)
    · exact h'
    · exact absurd h' (h2.2 h.symm)
  · exact absurd h (by intro hc; exact absurd hc (by simpa using h2.1))

theorem clockLt_congr_left {a b c : ClipboardItem} (h : clockEq a b) :
    clockLt a c ↔ clockLt b c := by
  unfold clockLt
  rw [h.1, h.2]

theorem clockLt_congr_right {a b c : ClipboardItem} (h : clockEq a b) :
    clockLt c a ↔ clockLt c b := by
  unfold clockLt
  rw [h.1, h.2]

/-- The clipboard polling loop body from `start_clipboard_monitor` in
`docs/demand.md`: given the `last_content` state and the current clipboard
read, return the next `last_content` and whether a `clipboard_update`
event was emitted. Mirrors
`if !content.is_empty() && content != last_content { emit; last_content = content }`. -/
def monitorPoll (last_content content : String) : String × Bool :=
  if content ≠ "" ∧ content ≠ last_content then (content, true) else (last_content, false)

/-- Run the monitor loop over a list of successive clipboard reads,
collecting the contents carried by the emitted `clipboard_update` events. -/
def runMonitor (last_content : String) : List String → List String
  | [] => []
  | content :: rest =>
    if content ≠ "" ∧ content ≠ last_content then
      content :: runMonitor content rest
    else
      runMonitor last_content rest

theorem runMonitor_nil (last_content : String) : runMonitor last_content [] = [] :=
  rfl

theorem runMonitor_cons (last_content content : String) (rest : List String) :
    runMonitor last_content (content :: rest) =
      if content ≠ "" ∧ content ≠ last_content then
        content :: runMonitor content rest
      else
        runMonitor last_content rest :=
  rfl

theorem clockEq_symm {a b : ClipboardItem} (h : clockEq a b) : clockEq b a :=
  ⟨h.1.symm, h.2.symm⟩

theorem clockLt_or_clockEq_of_not_clockLt {a b : ClipboardItem}
    (h : ¬ clockLt b a) : clockLt a b ∨ clockEq a b := by
  by_cases h' : clockLt a b
  · exact Or.inl h'
  · exact Or.inr (clockEq_of_not_lt h' h)

theorem conflict_resolver_assoc (a b c : ClipboardItem) :
    conflict_resolver (conflict_resolver a b) c = conflict_resolver a (conflict_resolver b c) := by
  simp only [conflict_resolver_eq_ite]
  by_cases hba : clockLt b a
  · by_cases hcb : clockLt c b
    · rw [if_pos hba, if_pos hcb, if_pos hba, if_pos (clockLt_trans hcb hba)]
    · rw [if_pos hba, if_neg hcb]
  · by_cases hcb : clockLt c b
    · rw [if_neg hba, if_pos hcb, if_neg hba]
    · rw [if_neg hba, if_neg hcb]
      have hca : ¬ clockLt c a := by
        intro hca
        rcases clockLt_or_clockEq_of_not_clockLt hba with h1 | h1 <;>
          rcases clockLt_or_clockEq_of_not_clockLt hcb with h2 | h2
        · exact clockLt_asymm (clockLt_trans h1 h2) hca
        · exact hba ((clockLt_congr_left (clockEq_symm h2)).mp hca)
        · exact hcb ((clockLt_congr_right h1).mp hca)
        · exact hcb ((clockLt_congr_right h1).mp hca)
      rw [if_neg hca]

/-- C1: `conflict_resolver` returns the version whose hybrid clock
`(physical timestamp, device id)` is greater — greater physical timestamp
wins and, on a timestamp tie, the lexicographically greater device id
wins; in particular it picks `(ts = 80, device = Y)` over
`(ts = 50, device = X)`. -/
theorem conflict_resolver_greater_clock_wins (a b : Demand.ClipboardItem) :
    (Demand.clockLt b a → Demand.conflict_resolver a b = a) ∧
    (Demand.clockLt a b → Demand.conflict_resolver a b = b) ∧
    Demand.conflict_resolver ⟨"1", "ca", 50, "X"⟩ ⟨"2", "cb", 80, "Y"⟩ =
      ⟨"2", "cb", 80, "Y"⟩ := by
  refine ⟨?_, ?_, ?_⟩
  · intro h
    rw [conflict_resolver_eq_ite, if_pos h]
  · intro h
    rw [conflict_resolver_eq_ite, if_neg (clockLt_asymm h)]
  · decide

/-- Witness for C1 at a concrete input: the resolver picks the version
with the greater physical timestamp. -/
theorem conflict_resolver_greater_clock_wins_witness :
    Demand.conflict_resolver ⟨"1", "ca", 50, "X"⟩ ⟨"2", "cb", 80, "Y"⟩ =
      ⟨"2", "cb", 80, "Y"⟩ :=
  (conflict_resolver_greater_clock_wins ⟨"1", "ca", 50, "X"⟩ ⟨"2", "cb", 80, "Y"⟩).2.1
    (by decide)

/-- C2 counterexample: `conflict_resolver` is not commutative on all
versions. Two distinct versions carrying the same hybrid clock (same
timestamp and same device id) resolve to whichever was passed second. -/
theorem conflict_resolver_not_commutative_at_equal_clocks :
    Demand.conflict_resolver ⟨"1", "x", 100, "A"⟩ ⟨"2", "y", 100, "A"⟩ ≠
    Demand.conflict_resolver ⟨"2", "y", 100, "A"⟩ ⟨"1", "x", 100, "A"⟩ := by
  decide

/-- C2 (amended): `conflict_resolver` is idempotent and associative for
all versions, and commutative whenever the two versions carry distinct
hybrid clocks; on `(ts = 100, device = A)` vs `(ts = 100, device = B)` it
picks B regardless of argument order. -/
theorem conflict_resolver_algebra (a b c : Demand.ClipboardItem) :
    Demand.conflict_resolver a a = a ∧
    Demand.conflict_resolver (Demand.conflict_resolver a b) c =
      Demand.conflict_resolver a (Demand.conflict_resolver b c) ∧
    (¬ Demand.clockEq a b →
      Demand.conflict_resolver a b = Demand.conflict_resolver b a) ∧
    Demand.conflict_resolver ⟨"1", "x", 100, "A"⟩ ⟨"2", "y", 100, "B"⟩ =
      ⟨"2", "y", 100, "B"⟩ ∧
    Demand.conflict_resolver ⟨"2", "y", 100, "B"⟩ ⟨"1", "x", 100, "A"⟩ =
      ⟨"2", "y", 100, "B"⟩ := by
  refine ⟨?_, conflict_resolver_assoc a b c, ?_, by decide, by decide⟩
  · rw [conflict_resolver_eq_ite]
    exact ite_self a
  · intro hne
    by_cases hba : clockLt b a
    · rw [conflict_resolver_eq_ite, if_pos hba,
        conflict_resolver_eq_ite, if_neg (clockLt_asymm hba)]
    · by_cases hab : clockLt a b
      · rw [conflict_resolver_eq_ite, if_neg (clockLt_asymm hab),
          conflict_resolver_eq_ite, if_pos hab]
      · exact absurd (clockEq_of_not_lt hab hba) hne

/-- Witness for C2 (amended) at concrete inputs: commutativity holds for
the two concurrent versions `(ts = 100, device = A)` and
`(ts = 100, device = B)`, whose clocks differ. -/
theorem conflict_resolver_algebra_witness :
    Demand.conflict_resolver ⟨"1", "x", 100, "A"⟩ ⟨"2", "y", 100, "B"⟩ =
      Demand.conflict_resolver ⟨"2", "y", 100, "B"⟩ ⟨"1", "x", 100, "A"⟩ :=
  (conflict_resolver_algebra ⟨"1", "x", 100, "A"⟩ ⟨"2", "y", 100, "B"⟩
    ⟨"2", "y", 100, "B"⟩).2.2.1 (by decide)

/-- C4: each poll of the clipboard monitor emits exactly one change event
if and only if the current clipboard content is non-empty and differs
from the last emitted content; two consecutive identical reads emit at
most one event (none for the second read); content changing A then B then
A after A was last emitted yields exactly two events. -/
theorem clipboard_monitor_emission :
    (∀ last content, (Demand.monitorPoll last content).2 = true ↔
      content ≠ "" ∧ content ≠ last) ∧
    (∀ last content, Demand.runMonitor last [content, content] =
      if content ≠ "" ∧ content ≠ last then [content] else []) ∧
    (∀ a b : String, a ≠ "" → b ≠ "" → a ≠ b →
      Demand.runMonitor a [b, a] = [b, a]) := by
  refine ⟨?_, ?_, ?_⟩
  · intro last content
    unfold monitorPoll
    by_cases h : content ≠ "" ∧ content ≠ last
    · simp [h]
    · simp [if_neg h, h]
  · intro last content
    by_cases h : content ≠ "" ∧ content ≠ last
    · rw [if_pos h, runMonitor_cons, if_pos h, runMonitor_cons,
        if_neg (fun hc => hc.2 rfl), runMonitor_nil]
    · rw [if_neg h, runMonitor_cons, if_neg h, runMonitor_cons, if_neg h, runMonitor_nil]
  · intro a b ha hb hab
    rw [runMonitor_cons, if_pos ⟨hb, fun h => hab h.symm⟩, runMonitor_cons,
      if_pos ⟨ha, hab⟩, runMonitor_nil]

/-- Witness for C4 at concrete inputs: with "A" last emitted, reads
`["B", "A"]` emit exactly the two events `["B", "A"]`. -/
theorem clipboard_monitor_emission_witness :
    Demand.runMonitor "A" ["B", "A"] = ["B", "A"] :=
  clipboard_monitor_emission.2.2 "A" "B" (by decide) (by decide) (by decide)

end Demand

namespace Frontend

/-- The `ClipboardItem` interface shared by `HomePage.tsx`,
`SearchPage.tsx` and `NotesPage.tsx` (there named `Note`). -/
structure ClipboardItem where
  id : String
  content : String
  title : String
  created_at : Int
  updated_at : Int
  is_pinned : Bool
deriving DecidableEq, Repr

/-- JavaScript `s.toLowerCase()`, embedded as per-character lowering of
the character list. -/
def lower (s : String) : List Char :=
  s.data.map Char.toLower

/-- JavaScript `s.includes(sub)`: `sub` occurs contiguously inside `s`. -/
def jsIncludes (s sub : List Char) : Prop :=
  sub <:+: s

instance (s sub : List Char) : Decidable (jsIncludes s sub) :=
  List.decidableInfix sub s

/-- The text-match predicate of `filteredItems` in `HomePage.tsx` (also
`filteredNotes` in `NotesPage.tsx`):
`item.content.toLowerCase().includes(searchText.toLowerCase()) || item.title.toLowerCase().includes(searchText.toLowerCase())`. -/
def textMatches (searchText : String) (item : ClipboardItem) : Bool :=
  decide (jsIncludes (lower item.content) (lower searchText)) ||
  decide (jsIncludes (lower item.title) (lower searchText))

/-- `filteredItems` from `HomePage.tsx`: keep the items whose content or
title contains the search text case-insensitively. -/
def filteredItems (searchText : String) (items : List ClipboardItem) : List ClipboardItem :=
  items.filter (textMatches searchText)

/-- JavaScript numeric coercion of `is_pinned` in the pin-toggle sort
comparator: `b.is_pinned ? 1 : 0`. -/
def pinRank (item : ClipboardItem) : Int :=
  if item.is_pinned then 1 else 0

/-- The sort relation of the comparator used by `togglePin` in
`HomePage.tsx` and `NotesPage.tsx`:
`(b.is_pinned ? 1 : 0) - (a.is_pinned ? 1 : 0) || b.created_at - a.created_at`.
`a` sorts no later than `b` exactly when the comparator is `≤ 0`. -/
def pinSortRel (a b : ClipboardItem) : Prop :=
  pinRank b < pinRank a ∨ (pinRank a = pinRank b ∧ b.created_at ≤ a.created_at)

instance : DecidableRel pinSortRel := fun a b => by
  unfold pinSortRel; infer_instance

instance : IsTotal ClipboardItem pinSortRel :=
  ⟨fun a b => by unfold pinSortRel; omega⟩

instance : IsTrans ClipboardItem pinSortRel :=
  ⟨fun a b c hab hbc => by unfold pinSortRel at *; omega⟩

/-- `togglePin` from `HomePage.tsx`: flip `is_pinned` on the item with
the given id, then sort pinned items first with ties broken by
`created_at` descending (the same comparator re-sorts the list in
`togglePin` of `NotesPage.tsx`). -/
def togglePin (id : String) (items : List ClipboardItem) : List ClipboardItem :=
  List.insertionSort pinSortRel
    (items.map fun item =>
      if item.id = id then { item with is_pinned := !item.is_pinned } else item)

/-- `deleteItem` from `HomePage.tsx` (and `deleteNote` in
`NotesPage.tsx`): `prev.filter(item => item.id !== id)`. -/
def deleteItem (id : String) (items : List ClipboardItem) : List ClipboardItem :=
  items.filter fun item => item.id != id

/-- The advanced-search state of `SearchPage.tsx`: `searchText`,
`dateRange` (a nullable pair of timestamps) and `filterPinned`
(a nullable pinned flag). -/
structure SearchFilter where
  searchText : String
  dateRange : Option (Int × Int)
  filterPinned : Option Bool

/-- The filter predicate of `filteredAndSortedItems` in `SearchPage.tsx`:
`textMatch && dateMatch && pinnedMatch`, where an empty search text, a
null date range and a null pinned filter each match everything. -/
def searchMatches (f : SearchFilter) (item : ClipboardItem) : Bool :=
  (if f.searchText = "" then true else textMatches f.searchText item) &&
  (match f.dateRange with
   | some (lo, hi) => decide (lo ≤ item.created_at) && decide (item.created_at ≤ hi)
   | none => true) &&
  (match f.filterPinned with
   | some p => item.is_pinned == p
   | none => true)

/-- The sort relation selected by the `sortBy` switch in
`filteredAndSortedItems` of `SearchPage.tsx`; `a` sorts no later than `b`
exactly when the comparator is `≤ 0`. `localeCompare` on titles is
embedded as lexicographic comparison of the character lists; any
unrecognized `sortBy` value falls through to the `default` branch,
`created_at` descending. -/
def listSortRel (sortBy : String) (a b : ClipboardItem) : Prop :=
  if sortBy = "date_asc" then a.created_at ≤ b.created_at
  else if sortBy = "date_desc" then b.created_at ≤ a.created_at
  else if sortBy = "title_asc" then a.title.data ≤ b.title.data
  else if sortBy = "title_desc" then b.title.data ≤ a.title.data
  else b.created_at ≤ a.created_at

instance (sortBy : String) : DecidableRel (listSortRel sortBy) := fun a b => by
  unfold listSortRel; infer_instance

instance (sortBy : String) : IsTotal ClipboardItem (listSortRel sortBy) :=
  ⟨fun a b => by
    unfold listSortRel
    split_ifs <;> exact le_total _ _⟩

instance (sortBy : String) : IsTrans ClipboardItem (listSortRel sortBy) :=
  ⟨fun a b c hab hbc => by
    unfold listSortRel at *
    split_ifs at * <;> first
      | exact le_trans hab hbc
      | exact le_trans hbc hab⟩

/-- `filteredAndSortedItems` from `SearchPage.tsx`: filter by search
text, date range and pinned status, then sort by the selected key. -/
def filteredAndSortedItems (items : List ClipboardItem) (f : SearchFilter)
    (sortBy : String) : List ClipboardItem :=
  List.insertionSort (listSortRel sortBy) (items.filter (searchMatches f))

end Frontend

namespace Frontend

theorem orderedInsert_congr {α : Type} {r s : α → α → Prop}
    [DecidableRel r] [DecidableRel s] (h : ∀ a b, r a b ↔ s a b) (a : α) :
    ∀ l : List α, l.orderedInsert r a = l.orderedInsert s a
  | [] => rfl
  | b :: l => by
    rw [List.orderedInsert, List.orderedInsert]
    by_cases hr : r a b
    · rw [if_pos hr, if_pos ((h a b).mp hr)]
    · rw [if_neg hr, if_neg (fun hs => hr ((h a b).mpr hs)), orderedInsert_congr h a l]

theorem insertionSort_congr {α : Type} {r s : α → α → Prop}
    [DecidableRel r] [DecidableRel s] (h : ∀ a b, r a b ↔ s a b) :
    ∀ l : List α, List.insertionSort r l = List.insertionSort s l
  | [] => rfl
  | a :: l => by
    rw [List.insertionSort, List.insertionSort, insertionSort_congr h l,
      orderedInsert_congr h a (List.insertionSort s l)]

/-- C3 counterexample: the display list produced by `togglePin` breaks
ties between items of equal pinned status by `created_at` descending, not
by `updated_at` descending. Two unpinned items whose `updated_at` order
disagrees with their `created_at` order come out ordered by `created_at`:
the first item of the result has the smaller `updated_at`. -/
theorem togglePin_orders_by_created_at_not_updated_at :
    Frontend.togglePin "z"
        [⟨"1", "c1", "t1", 1, 10, false⟩, ⟨"2", "c2", "t2", 2, 5, false⟩] =
      [⟨"2", "c2", "t2", 2, 5, false⟩, ⟨"1", "c1", "t1", 1, 10, false⟩] ∧
    (5 : Int) < 10 := by
  constructor
  · decide
  · decide

/-- C3 (amended): in the display list produced by `togglePin` (HomePage
and NotesPage), every pinned item appears before every unpinned item, and
items with equal pinned status are ordered by `created_at` descending
(SearchPage orders solely by its selected sort key). -/
theorem togglePin_pinned_first_created_desc (id : String)
    (items : List Frontend.ClipboardItem) :
    List.Pairwise
      (fun a b : Frontend.ClipboardItem =>
        (b.is_pinned = true → a.is_pinned = true) ∧
        (a.is_pinned = b.is_pinned → b.created_at ≤ a.created_at))
      (Frontend.togglePin id items) := by
  have hs : List.Sorted pinSortRel (togglePin id items) :=
    List.sorted_insertionSort pinSortRel _
  refine hs.imp ?_
  intro a b h
  unfold pinSortRel pinRank at h
  cases hpa : a.is_pinned <;> cases hpb : b.is_pinned <;>
    simp [hpa, hpb] at h ⊢ <;> omega

theorem searchMatches_iff (f : SearchFilter) (x : ClipboardItem) :
    searchMatches f x = true ↔
      ((jsIncludes (lower x.content) (lower f.searchText) ∨
        jsIncludes (lower x.title) (lower f.searchText)) ∧
      (∀ lo hi, f.dateRange = some (lo, hi) → lo ≤ x.created_at ∧ x.created_at ≤ hi) ∧
      (∀ p, f.filterPinned = some p → x.is_pinned = p)) := by
  unfold searchMatches textMatches
  rcases f with ⟨st, dr, fp⟩
  simp only
  constructor
  · intro h
    rw [Bool.and_eq_true, Bool.and_eq_true] at h
    obtain ⟨⟨h1, h2⟩, h3⟩ := h
    refine ⟨?_, ?_, ?_⟩
    · by_cases hst : st = ""
      · have hl : lower st = [] := by rw [hst]; rfl
        rw [hl]
        exact Or.inl List.nil_infix
      · rw [if_neg hst, Bool.or_eq_true, decide_eq_true_iff, decide_eq_true_iff] at h1
        exact h1
    · intro lo hi hdr
      subst hdr
      rw [Bool.and_eq_true, decide_eq_true_iff, decide_eq_true_iff] at h2
      exact h2
    · intro p hfp
      subst hfp
      exact beq_iff_eq.mp h3
  · rintro ⟨h1, h2, h3⟩
    rw [Bool.and_eq_true, Bool.and_eq_true]
    refine ⟨⟨?_, ?_⟩, ?_⟩
    · by_cases hst : st = ""
      · rw [if_pos hst]
      · rw [if_neg hst, Bool.or_eq_true, decide_eq_true_iff, decide_eq_true_iff]
        exact h1
    · rcases dr with _ | ⟨lo, hi⟩
      · rfl
      · rw [Bool.and_eq_true, decide_eq_true_iff, decide_eq_true_iff]
        exact h2 lo hi rfl
    · rcases fp with _ | p
      · rfl
      · exact beq_iff_eq.mpr (h3 p rfl)

/-- C5: `filteredAndSortedItems` returns exactly the items satisfying
every active filter — the search string occurs case-insensitively in the
content or the title, the creation timestamp lies inclusively within the
chosen date range, the pinned status equals the chosen pinned filter —
ordered by the selected sort key (date ascending or descending, title
ascending or descending), with date descending as the default for any
other `sortBy` value. -/
theorem filteredAndSortedItems_spec (items : List Frontend.ClipboardItem)
    (f : Frontend.SearchFilter) (sortBy : String) :
    (∀ x, x ∈ Frontend.filteredAndSortedItems items f sortBy ↔
      x ∈ items ∧
      (Frontend.jsIncludes (Frontend.lower x.content) (Frontend.lower f.searchText) ∨
        Frontend.jsIncludes (Frontend.lower x.title) (Frontend.lower f.searchText)) ∧
      (∀ lo hi, f.dateRange = some (lo, hi) → lo ≤ x.created_at ∧ x.created_at ≤ hi) ∧
      (∀ p, f.filterPinned = some p → x.is_pinned = p)) ∧
    List.Sorted (Frontend.listSortRel sortBy)
      (Frontend.filteredAndSortedItems items f sortBy) ∧
    (sortBy ≠ "date_asc" → sortBy ≠ "title_asc" → sortBy ≠ "title_desc" →
      Frontend.filteredAndSortedItems items f sortBy =
        Frontend.filteredAndSortedItems items f "date_desc") := by
  refine ⟨?_, List.sorted_insertionSort _ _, ?_⟩
  · intro x
    unfold filteredAndSortedItems
    rw [List.mem_insertionSort, List.mem_filter, searchMatches_iff]
  · intro h1 h2 h3
    unfold filteredAndSortedItems
    refine insertionSort_congr ?_ _
    intro a b
    unfold listSortRel
    split_ifs <;> first | rfl | simp_all

/-- Witness for C5 at a concrete input: an unrecognized sort key falls
back to date descending. -/
theorem filteredAndSortedItems_spec_witness :
    Frontend.filteredAndSortedItems
        [⟨"1", "c", "t", 3, 3, false⟩, ⟨"2", "d", "u", 7, 7, true⟩]
        ⟨"", none, none⟩ "bogus" =
      Frontend.filteredAndSortedItems
        [⟨"1", "c", "t", 3, 3, false⟩, ⟨"2", "d", "u", 7, 7, true⟩]
        ⟨"", none, none⟩ "date_desc" :=
  (filteredAndSortedItems_spec
      [⟨"1", "c", "t", 3, 3, false⟩, ⟨"2", "d", "u", 7, 7, true⟩]
      ⟨"", none, none⟩ "bogus").2.2 (by decide) (by decide) (by decide)

/-- C9: deleting an item by id keeps exactly the items whose id differs
from the argument, unchanged and in order (the result is a sublist of the
input); deleting an id that is not present leaves the list entirely
unchanged. The operation is a total function and raises no error. -/
theorem deleteItem_frame (id : String) (items : List Frontend.ClipboardItem) :
    (∀ x, x ∈ Frontend.deleteItem id items ↔ x ∈ items ∧ x.id ≠ id) ∧
    List.Sublist (Frontend.deleteItem id items) items ∧
    ((∀ x ∈ items, x.id ≠ id) → Frontend.deleteItem id items = items) := by
  refine ⟨?_, List.filter_sublist _, ?_⟩
  · intro x
    unfold deleteItem
    rw [List.mem_filter]
    simp [bne_iff_ne]
  · intro h
    unfold deleteItem
    rw [List.filter_eq_self]
    intro a ha
    simpa [bne_iff_ne] using h a ha

/-- Witness for C9 at a concrete input: deleting an absent id leaves the
list unchanged. -/
theorem deleteItem_frame_witness :
    Frontend.deleteItem "2" [⟨"1", "c", "t", 1, 1, false⟩] =
      [⟨"1", "c", "t", 1, 1, false⟩] :=
  (deleteItem_frame "2" [⟨"1", "c", "t", 1, 1, false⟩]).2.2 (by decide)

/-- C10: the text search filter with an empty search string is the
identity — for every item list, filtering with `searchText = ""` returns
all items in order, because case-insensitive containment of the empty
string holds for every title and every content. -/
theorem empty_search_filter_identity (items : List Frontend.ClipboardItem) :
    Frontend.filteredItems "" items = items := by
  unfold filteredItems
  rw [List.filter_eq_self]
  intro a _
  unfold textMatches
  have hl : lower "" = [] := rfl
  rw [hl]
  simp [jsIncludes]

end Frontend

/-- Modelled from the spec: the error taxonomy of the error-handling
design (no error type exists under src/; the spec names `NotFound`,
`Conflict`, `DeviceLimitExceeded`, `DecryptionFailure`,
`NetworkUnavailable`, `StorageFull`, `AuthExpired`). -/
inductive SyncError where
  | NotFound
  | Conflict
  | DeviceLimitExceeded
  | DecryptionFailure
  | NetworkUnavailable
  | StorageFull
  | AuthExpired
deriving DecidableEq, Repr

namespace Crypto

/-- The `encryption_keys` row from migration `20240325000000_init.sql`:
id, user_id, key_data, nonce, created_at. -/
structure EncryptionKey where
  id : String
  user_id : String
  key_data : List Nat
  nonce : List Nat
  created_at : Int
deriving DecidableEq, Repr

/-- Modelled from the spec: a ciphertext of the Encryption Layer (no
encryption implementation exists under src/; only the key table does).
AES-GCM-SIV authenticated encryption is embedded symbolically: a
ciphertext is opaque and bound to the key material and nonce it was
produced under, and decryption recovers the payload only under exactly
that key material. -/
structure Ciphertext where
  key_data : List Nat
  nonce : List Nat
  body : List Nat
deriving DecidableEq, Repr

/-- Modelled from the spec: `encrypt(payload) -> ciphertext` using the
given (active) key. -/
def encrypt (k : EncryptionKey) (payload : List Nat) : Ciphertext :=
  ⟨k.key_data, k.nonce, payload⟩

/-- Modelled from the spec: `decrypt(ciphertext) -> payload`; decrypting
with any key other than the one the ciphertext was encrypted under fails
with `DecryptionFailure`. -/
def decrypt (k : EncryptionKey) (c : Ciphertext) : Except SyncError (List Nat) :=
  if k.key_data = c.key_data ∧ k.nonce = c.nonce then .ok c.body
  else .error .DecryptionFailure

/-- Modelled from the spec: key rotation generates a new key and eagerly
re-encrypts every existing payload under it before marking it active. -/
def rotateReencrypt (newKey : EncryptionKey) (payloads : List (List Nat)) :
    List Ciphertext :=
  payloads.map (encrypt newKey)

/-- C6: `decrypt(encrypt(payload))` with the active key returns the
payload unchanged, byte-exact; decrypting a ciphertext with any key
whose material differs from the one it was encrypted under — in
particular a key from before a completed rotation, after every payload
was re-encrypted under the new key — fails with `DecryptionFailure`. -/
theorem decrypt_encrypt_roundtrip_wrong_key_fails
    (k old : Crypto.EncryptionKey) (payload : List Nat)
    (payloads : List (List Nat)) (h : old.key_data ≠ k.key_data) :
    Crypto.decrypt k (Crypto.encrypt k payload) = .ok payload ∧
    Crypto.decrypt old (Crypto.encrypt k payload) = .error .DecryptionFailure ∧
    (∀ c ∈ Crypto.rotateReencrypt k payloads,
      Crypto.decrypt old c = .error .DecryptionFailure) := by
  refine ⟨?_, ?_, ?_⟩
  · unfold decrypt encrypt
    rw [if_pos ⟨rfl, rfl⟩]
  · unfold decrypt encrypt
    rw [if_neg (fun hc => h hc.1)]
  · intro c hc
    unfold rotateReencrypt at hc
    obtain ⟨p, _, rfl⟩ := List.mem_map.mp hc
    unfold decrypt encrypt
    rw [if_neg (fun hc' => h hc'.1)]

/-- Witness for C6 at a concrete input: the roundtrip succeeds under the
encrypting key and fails under a key with different material. -/
theorem decrypt_encrypt_roundtrip_wrong_key_fails_witness :
    Crypto.decrypt ⟨"k1", "u", [1, 2], [3], 0⟩
        (Crypto.encrypt ⟨"k1", "u", [1, 2], [3], 0⟩ [5, 6]) = .ok [5, 6] ∧
    Crypto.decrypt ⟨"k0", "u", [9], [3], 0⟩
        (Crypto.encrypt ⟨"k1", "u", [1, 2], [3], 0⟩ [5, 6]) =
      .error .DecryptionFailure :=
  ⟨(decrypt_encrypt_roundtrip_wrong_key_fails ⟨"k1", "u", [1, 2], [3], 0⟩
      ⟨"k0", "u", [9], [3], 0⟩ [5, 6] [] (by decide)).1,
   (decrypt_encrypt_roundtrip_wrong_key_fails ⟨"k1", "u", [1, 2], [3], 0⟩
      ⟨"k0", "u", [9], [3], 0⟩ [5, 6] [] (by decide)).2.1⟩

end Crypto

namespace Sessions

/-- The `sessions` row from migration `20240325000000_init.sql`: token,
user_id, device_id, created_at, expires_at. -/
structure Session where
  token : String
  user_id : String
  device_id : String
  created_at : Int
  expires_at : Int
deriving DecidableEq, Repr

/-- Modelled from the spec: device registration enforces the
5-active-device cap — while 5 sessions are active, registering another
device fails with `DeviceLimitExceeded`; otherwise the new session is
added (no registration routine exists under src/; only the table does). -/
def registerDevice (sessions : List Session) (s : Session) :
    Except SyncError (List Session) :=
  if 5 ≤ sessions.length then .error .DeviceLimitExceeded
  else .ok (s :: sessions)

/-- Modelled from the spec: revoking a device removes its session. -/
def revokeDevice (sessions : List Session) (token : String) : List Session :=
  sessions.filter fun s => s.token != token

theorem length_filter_token_ne (t : String) :
    ∀ l : List Session,
      (l.filter fun x => x.token != t).length +
        l.countP (fun x => x.token == t) = l.length
  | [] => rfl
  | a :: l => by
    rw [List.countP_cons, List.filter_cons]
    by_cases h : a.token = t
    · rw [if_neg (by simp [h]), if_pos (by simp [h])]
      have := length_filter_token_ne t l
      simp only [List.length_cons]
      omega
    · rw [if_pos (by simp [h]), if_neg (by simp [h])]
      have := length_filter_token_ne t l
      simp only [List.length_cons]
      omega

/-- C7: an account never holds more than 5 active device sessions —
registering a 6th device while 5 sessions are active fails with
`DeviceLimitExceeded` and leaves the session set unchanged (the failing
registration returns only the error), and after revoking one existing
device session (the one valid session carrying the revoked token) the
same registration succeeds. -/
theorem device_limit_enforced (sessions : List Sessions.Session)
    (s : Sessions.Session) (t : String)
    (h5 : sessions.length = 5)
    (hone : sessions.countP (fun x => x.token == t) = 1) :
    Sessions.registerDevice sessions s = .error .DeviceLimitExceeded ∧
    Sessions.registerDevice (Sessions.revokeDevice sessions t) s =
      .ok (s :: Sessions.revokeDevice sessions t) := by
  constructor
  · unfold registerDevice
    rw [if_pos (by omega)]
  · unfold registerDevice revokeDevice
    have := length_filter_token_ne t sessions
    rw [if_neg (by omega)]

/-- Witness for C7 at a concrete input: with 5 active sessions the 6th
registration fails, and after revoking the session with token `t1` it
succeeds. -/
theorem device_limit_enforced_witness :
    Sessions.registerDevice
        [⟨"t1", "u", "d1", 0, 9⟩, ⟨"t2", "u", "d2", 0, 9⟩, ⟨"t3", "u", "d3", 0, 9⟩,
         ⟨"t4", "u", "d4", 0, 9⟩, ⟨"t5", "u", "d5", 0, 9⟩] ⟨"t6", "u", "d6", 0, 9⟩ =
      .error .DeviceLimitExceeded ∧
    Sessions.registerDevice
        (Sessions.revokeDevice
          [⟨"t1", "u", "d1", 0, 9⟩, ⟨"t2", "u", "d2", 0, 9⟩, ⟨"t3", "u", "d3", 0, 9⟩,
           ⟨"t4", "u", "d4", 0, 9⟩, ⟨"t5", "u", "d5", 0, 9⟩] "t1") ⟨"t6", "u", "d6", 0, 9⟩ =
      .ok (⟨"t6", "u", "d6", 0, 9⟩ ::
        Sessions.revokeDevice
          [⟨"t1", "u", "d1", 0, 9⟩, ⟨"t2", "u", "d2", 0, 9⟩, ⟨"t3", "u", "d3", 0, 9⟩,
           ⟨"t4", "u", "d4", 0, 9⟩, ⟨"t5", "u", "d5", 0, 9⟩] "t1") :=
  device_limit_enforced
    [⟨"t1", "u", "d1", 0, 9⟩, ⟨"t2", "u", "d2", 0, 9⟩, ⟨"t3", "u", "d3", 0, 9⟩,
     ⟨"t4", "u", "d4", 0, 9⟩, ⟨"t5", "u", "d5", 0, 9⟩] ⟨"t6", "u", "d6", 0, 9⟩ "t1"
    (by decide) (by decide)

end Sessions

namespace Store

/-- The `clipboard_items` row from migration `20240325000000_init.sql`
together with the pinned flag, as held by the Local Store. -/
structure StoredItem where
  id : String
  content : String
  title : String
  created_at : Int
  updated_at : Int
  is_pinned : Bool
deriving DecidableEq, Repr

/-- Modelled from the spec: the eviction candidate of the Local Store —
the least-recently-updated unpinned item, when any unpinned item exists
(no eviction routine exists under src/; the spec specifies it for the
configured item cap). -/
def lruUnpinned (items : List StoredItem) : Option StoredItem :=
  (items.filter fun i => !i.is_pinned).argmin (fun i => i.updated_at)

/-- Modelled from the spec: when the active item count exceeds the
configured cap (default 100), evict the least-recently-updated unpinned
item; pinned items are never evicted automatically. -/
def evictOnce (cap : Nat) (items : List StoredItem) : List StoredItem :=
  if cap < items.length then
    match lruUnpinned items with
    | some v => items.eraseP fun i => i.id == v.id
    | none => items
  else items

/-- C8: whenever the active item count exceeds the configured cap,
eviction removes the least-recently-updated unpinned item — the evicted
item is unpinned and its `updated_at` is minimal among unpinned items —
and a pinned item is never evicted while any unpinned item exists: every
pinned item survives the eviction. -/
theorem eviction_prefers_lru_unpinned (cap : Nat) (items : List Store.StoredItem)
    (hcap : cap < items.length)
    (hnd : (items.map fun i => i.id).Nodup)
    (u : Store.StoredItem) (hu : u ∈ items) (hup : u.is_pinned = false) :
    ∃ v, Store.lruUnpinned items = some v ∧ v ∈ items ∧ v.is_pinned = false ∧
      (∀ w ∈ items, w.is_pinned = false → v.updated_at ≤ w.updated_at) ∧
      Store.evictOnce cap items = items.eraseP (fun i => i.id == v.id) ∧
      (∀ p ∈ items, p.is_pinned = true → p ∈ Store.evictOnce cap items) := by
  have hufilter : u ∈ items.filter fun i => !i.is_pinned :=
    List.mem_filter.mpr ⟨hu, by simp [hup]⟩
  have hne : (items.filter fun i => !i.is_pinned) ≠ [] := by
    intro hnil
    rw [hnil] at hufilter
    exact absurd hufilter (List.not_mem_nil u)
  obtain ⟨v, hv⟩ : ∃ v, lruUnpinned items = some v := by
    unfold lruUnpinned
    rcases ho : (items.filter fun i => !i.is_pinned).argmin (fun i => i.updated_at)
      with _ | v
    · exact absurd (List.argmin_eq_none.mp ho) hne
    · exact ⟨v, ho⟩
  have hvmem : v ∈ items.filter fun i => !i.is_pinned := List.argmin_mem hv
  have hvitems : v ∈ items := (List.mem_filter.mp hvmem).1
  have hvunpinned : v.is_pinned = false := by
    have := (List.mem_filter.mp hvmem).2
    simpa using this
  refine ⟨v, hv, hvitems, hvunpinned, ?_, ?_, ?_⟩
  · intro w hw hwp
    exact List.le_of_mem_argmin (List.mem_filter.mpr ⟨hw, by simp [hwp]⟩) hv
  · unfold evictOnce
    rw [if_pos hcap, hv]
  · intro p hp hpp
    unfold evictOnce
    rw [if_pos hcap, hv]
    have hpid : ¬ (p.id == v.id) = true := by
      intro hb
      have : p = v := List.inj_on_of_nodup_map hnd hp hvitems (beq_iff_eq.mp hb)
      rw [this] at hpp
      rw [hvunpinned] at hpp
      exact Bool.false_ne_true hpp
    have hmem : p ∈ items.eraseP (fun i => i.id == v.id) ↔ p ∈ items :=
      List.mem_eraseP_of_neg hpid
    exact hmem.mpr hp

/-- Witness for C8 at a concrete input: with a cap of 1 and one pinned
and one unpinned item, the unpinned item is the eviction candidate and
the pinned item survives. -/
theorem eviction_prefers_lru_unpinned_witness :
    ∃ v, Store.lruUnpinned
        [⟨"1", "c", "t", 0, 5, true⟩, ⟨"2", "c", "t", 0, 9, false⟩] = some v ∧
      v ∈ [(⟨"1", "c", "t", 0, 5, true⟩ : Store.StoredItem), ⟨"2", "c", "t", 0, 9, false⟩] ∧
      v.is_pinned = false ∧
      (∀ w ∈ [(⟨"1", "c", "t", 0, 5, true⟩ : Store.StoredItem), ⟨"2", "c", "t", 0, 9, false⟩],
        w.is_pinned = false → v.updated_at ≤ w.updated_at) ∧
      Store.evictOnce 1 [⟨"1", "c", "t", 0, 5, true⟩, ⟨"2", "c", "t", 0, 9, false⟩] =
        List.eraseP (fun i => i.id == v.id)
          [⟨"1", "c", "t", 0, 5, true⟩, ⟨"2", "c", "t", 0, 9, false⟩] ∧
      (∀ p ∈ [(⟨"1", "c", "t", 0, 5, true⟩ : Store.StoredItem), ⟨"2", "c", "t", 0, 9, false⟩],
        p.is_pinned = true →
        p ∈ Store.evictOnce 1 [⟨"1", "c", "t", 0, 5, true⟩, ⟨"2", "c", "t", 0, 9, false⟩]) :=
  eviction_prefers_lru_unpinned 1
    [⟨"1", "c", "t", 0, 5, true⟩, ⟨"2", "c", "t", 0, 9, false⟩]
    (by decide) (by decide) ⟨"2", "c", "t", 0, 9, false⟩ (by decide) (by decide)

end Store
